import Mathlib

/-!
Shallow embedding of the pinto repository (src/pinto): environment-name
resolution (env.py), project and pipeline orchestration (project.py) and the
scoped environment-variable helper (utils.py), together with theorems about
the spec claims.
-/

namespace Pinto

/-- Decidable equality on `Except`, used to settle concrete resolver
outcomes by `decide`. -/
instance {ε α : Type} [DecidableEq ε] [DecidableEq α] :
    DecidableEq (Except ε α) := fun x y =>
  match x, y with
  | .ok a, .ok b =>
    if h : a = b then .isTrue (by rw [h])
    else .isFalse (fun hc => h (Except.ok.inj hc))
  | .ok _, .error _ => .isFalse (fun hc => Except.noConfusion hc)
  | .error _, .ok _ => .isFalse (fun hc => Except.noConfusion hc)
  | .error e, .error f =>
    if h : e = f then .isTrue (by rw [h])
    else .isFalse (fun hc => h (Except.error.inj hc))

/-- Occurrence test of a pattern list somewhere inside another list. -/
def listInfix (pat : List Char) : List Char → Bool
  | [] => pat.isEmpty
  | c :: rest => List.isPrefixOf pat (c :: rest) || listInfix pat rest

/-- String containment test, modelling Python `pat in s`. -/
def strContains (s pat : String) : Bool :=
  listInfix pat.data s.data

/-- String suffix test on the character lists. -/
def endsWithStr (s suf : String) : Bool :=
  List.isSuffixOf suf.data s.data

/-- Check from env.py: the regular expression `_base_pattern`, namely
`(?<=-)base$`, matches `env_name` (via `.search`) exactly when the name ends
with the five characters "-base". -/
def endsWithBase (s : String) : Bool :=
  endsWithStr s "-base"

/-- Function `_is_yaml` from env.py: `Path(fname).suffix in (".yml", ".yaml")`,
modelled through the suffix of the file name. -/
def _is_yaml (fname : String) : Bool :=
  endsWithStr fname ".yml" || endsWithStr fname ".yaml"

/-- Function `_normalize_env_name` from env.py: `_base_pattern.sub` replaces a
trailing "base" that is preceded by a hyphen with `project_name`, keeping the
hyphen (the lookbehind is not consumed); a name without a trailing "-base" is
returned unchanged. -/
def _normalize_env_name (env_name project_name : String) : String :=
  if endsWithBase env_name then
    String.mk (env_name.data.take (env_name.data.length - 4)) ++ project_name
  else env_name

/-- Directory paths as component lists, deepest component first; `[]` is the
filesystem root and `List.tail` is the parent directory. -/
abbrev DirPath := List String

/-- Chain of directories visited by the while-loop in
`CondaEnvironment._look_for_environment_file`: the project directory itself,
then each successive parent, ending at the filesystem root (whose parent is
itself, stopping the loop). -/
def dirChain : DirPath → List DirPath
  | [] => [[]]
  | c :: rest => (c :: rest) :: dirChain rest

/-- Read-only filesystem oracle for the upward search: which directory
contains which file name, and the `name:` field that `_read_env_name` would
read from it (`none` models the missing-field ValueError). -/
structure FS where
  fileExists : DirPath → String → Bool
  nameField : DirPath → String → Option String

/-- Inner for-loop of `_look_for_environment_file`: at each directory try
"environment.yaml" and then "environment.yml"; the outer loop moves on to the
parent when neither exists. Returns the first hit together with the file
name that matched. -/
def findEnvFile (fs : FS) : List DirPath → Option (DirPath × String)
  | [] => none
  | d :: rest =>
    if fs.fileExists d "environment.yaml" then some (d, "environment.yaml")
    else if fs.fileExists d "environment.yml" then some (d, "environment.yml")
    else findEnvFile fs rest

/-- Method `CondaEnvironment._look_for_environment_file` from env.py: walk the
directory chain, fail when the root is passed with no hit, read the declared
name, and post-process it: a file in the project directory itself keeps its
declared name verbatim; a file in an ancestor keeps a normalized name when it
ends in "-base" and otherwise yields the project name. Returns the located
file and the resolved environment name. -/
def look_for_environment_file (fs : FS) (projectPath : DirPath)
    (projectName : String) : Except String ((DirPath × String) × String) :=
  match findEnvFile fs (dirChain projectPath) with
  | none => .error "No environment file in directory tree of project"
  | some (d, f) =>
    match fs.nameField d f with
    | none => .error "Environment file has no name field"
    | some envName =>
      if d = projectPath then .ok ((d, f), envName)
      else if endsWithBase envName then
        .ok ((d, f), _normalize_env_name envName projectName)
      else .ok ((d, f), projectName)

/-- Name-resolution part of `CondaEnvironment.__post_init__`: when the
manifest declares `base_env`, read the declared name (from the file when
`base_env` is a yaml path, else `base_env` itself) and always normalize it;
without a declaration, fall back to the upward search. `readName` models
`_read_env_name` applied to the declared path. -/
def conda_post_init_name (fs : FS) (projectPath : DirPath)
    (projectName : String) (baseEnvCfg : Option String)
    (readName : String → Option String) : Except String String :=
  match baseEnvCfg with
  | none =>
    (look_for_environment_file fs projectPath projectName).map (fun r => r.2)
  | some be =>
    if _is_yaml be then
      match readName be with
      | none => .error "Environment file has no name field"
      | some n => .ok (_normalize_env_name n projectName)
    else .ok (_normalize_env_name be projectName)

/-! Model of `Project.__post_init__` name resolution (project.py). -/

/-- Shape of a pyproject.toml as far as `Project.__post_init__` reads it:
whether the `tool` table exists, whether `tool.poetry` exists inside it, and
the optional `tool.poetry.name` value. -/
structure ProjectConfig where
  hasToolTable : Bool
  hasPoetryTable : Bool
  poetryName : Option String

/-- Lookup `config["tool"]["poetry"]["name"]`; the error value is the key of
the KeyError that Python raises for the first missing level. -/
def lookupPoetryName (c : ProjectConfig) : Except String String :=
  if !c.hasToolTable then .error "tool"
  else if !c.hasPoetryTable then .error "poetry"
  else
    match c.poetryName with
    | none => .error "name"
    | some n => .ok n

/-- Outcome of the name-assignment in `Project.__post_init__`. -/
inductive NameOutcome
  | resolved (name : String)
  | configError
  | nameUnset
deriving DecidableEq

/-- Method `Project.__post_init__` from project.py: assign
`self.name = config["tool"]["poetry"]["name"]`; on KeyError re-raise as a
ValueError only when the string form of the KeyError mentions "poetry"; any
other KeyError is swallowed, leaving `self.name` unassigned. -/
def projectNameOutcome (c : ProjectConfig) : NameOutcome :=
  match lookupPoetryName c with
  | .ok n => .resolved n
  | .error k => if strContains k "poetry" then .configError else .nameUnset

/-! Model of `Pipeline.__post_init__` and `Pipeline.run_step` (project.py). -/

/-- Shape of `tool.typeo` as far as `Pipeline.run_step` reads it: the list of
keys of the `scripts` sub-table, or `none` when the `scripts` key is absent
(the lookup then raises KeyError). -/
structure TypeoConfig where
  scripts : Option (List String)
deriving DecidableEq

/-- Shape of a pipeline pyproject.toml for `Pipeline.__post_init__`:
`steps` is the value of `tool.pinto.steps` (`none` when any key on that chain
is missing) and `typeoTbl` is the `tool.typeo` table (`none` when missing). -/
structure PipelineConfig where
  steps : Option (List String)
  typeoTbl : Option TypeoConfig

/-- Method `Pipeline.__post_init__` from project.py: touching `self.steps`
with a missing key raises the first ValueError; touching `self.typeo_config`
with a missing table raises the second; otherwise construction succeeds. The
declared values themselves are not inspected. -/
def pipelinePostInit (c : PipelineConfig) :
    Except String (List String × TypeoConfig) :=
  match c.steps with
  | none => .error "Config file has no tool.pinto table or steps key in it."
  | some st =>
    match c.typeoTbl with
    | none => .error "Config file has no tool.typeo table necessary to run projects."
    | some t => .ok (st, t)

/-- Split a character list at every colon, keeping empty segments, modelling
Python `step.split(":")`. -/
def splitColonAux : List Char → List (List Char)
  | [] => [[]]
  | c :: rest =>
    let r := splitColonAux rest
    if c = ':' then [] :: r
    else
      match r with
      | [] => [[c]]
      | g :: gs => (c :: g) :: gs

/-- Python `step.split(":")` on strings. -/
def splitColon (s : String) : List String :=
  (splitColonAux s.data).map String.mk

/-- Step parsing in `Pipeline.run`: unpack into three segments, fall back to
two, and fail otherwise. -/
def parsePipelineStep (step : String) :
    Except String (String × String × Option String) :=
  match splitColon step with
  | [c, cmd, sub] => .ok (c, cmd, some sub)
  | [c, cmd] => .ok (c, cmd, none)
  | _ => .error ("Cant parse pipeline step " ++ step)

/-- Reference construction in `Pipeline.run_step` from project.py: start from
the pipeline path; inside `try`, append ":command" when the `scripts` table
contains the command; on KeyError (no `scripts` key) append "::subcommand"
when a subcommand exists; in the `else` branch of the try (no KeyError,
whether or not the command matched) append ":subcommand" when a subcommand
exists. -/
def run_step_typeo_arg (pipelinePath : String) (typeo : TypeoConfig)
    (command : String) (subcommand : Option String) : String :=
  match typeo.scripts with
  | none =>
    match subcommand with
    | some sub => pipelinePath ++ "::" ++ sub
    | none => pipelinePath
  | some s =>
    let base := if s.contains command then pipelinePath ++ ":" ++ command
      else pipelinePath
    match subcommand with
    | some sub => base ++ ":" ++ sub
    | none => base

/-- Composition used by `Pipeline.run`: parse one step string and build the
reference `run_step` would pass via `--typeo`. -/
def pipelineStepRef (pipelinePath : String) (typeo : TypeoConfig)
    (step : String) : Except String String :=
  match parsePipelineStep step with
  | .error e => .error e
  | .ok (_, cmd, sub) => .ok (run_step_typeo_arg pipelinePath typeo cmd sub)

/-! Model of `Project.install` (project.py). -/

/-- Observable side effects of `Project.install`. -/
inductive InstallAction
  | createEnv
  | backendInstall
  | logAlreadyInstalled
deriving DecidableEq

/-- Method `Project.install` from project.py: create the environment when it
does not exist, then branch three ways on `contains`/`force`: install when
the project is absent, reinstall when present and forced, and only log when
present and unforced. `envExists` and `containsProject` are the values of the
two backend queries at the time they are made. -/
def projectInstallActions (envExists containsProject force : Bool) :
    List InstallAction :=
  (if envExists then [] else [.createEnv]) ++
  (if !containsProject then [.backendInstall]
   else if force then [.backendInstall]
   else [.logAlreadyInstalled])

/-! Model of the LD_LIBRARY_PATH handling in `Project.run` (project.py) and
`CondaEnvironment.run` (env.py). A state is the value of the variable, with
`none` for unset. -/

/-- CUDA path synthesis in `Project.run`: a value that is a directory is used
verbatim, anything else is treated as a version number and expanded to the
conventional install path. -/
def cudaLibPath (cudaVersion : String) (isDir : Bool) : String :=
  if isDir then cudaVersion else "/usr/local/cuda-" ++ cudaVersion ++ "/lib64"

/-- Method `CondaEnvironment.run` from env.py, restricted to its effect on
LD_LIBRARY_PATH: capture the current value; when it is set, overwrite it with
the captured value plus ":CONDA_PREFIX/lib"; run the child inside try; in the
finally block write the captured value back when it was set (on the success
path and on the SystemExit path alike). Returns the value the child sees,
the value after the call, and the surfaced child outcome. -/
def condaRunLdTrace (condaPfx : String) (exitCode : Nat) (ld0 : Option String) :
    (Option String × Option String) × Except Nat Unit :=
  let during : Option String :=
    match ld0 with
    | some v => some (v ++ ":" ++ condaPfx ++ "/lib")
    | none => ld0
  let afterCall : Option String :=
    match ld0 with
    | some v => some v
    | none => during
  ((during, afterCall), if exitCode = 0 then .ok () else .error exitCode)

/-- Method `Project.run` from project.py, restricted to its effect on
LD_LIBRARY_PATH: when the manifest declares a cuda-version, overwrite the
variable with the synthesized path prepended to the previous value (an unset
variable contributing the empty string), with no restoration afterwards; then
delegate to the shared-environment run. -/
def projectRunLdTrace (cudaCfg : Option (String × Bool)) (condaPfx : String)
    (exitCode : Nat) (ld0 : Option String) :
    (Option String × Option String) × Except Nat Unit :=
  let ld1 : Option String :=
    match cudaCfg with
    | none => ld0
    | some (cv, isDir) => some (cudaLibPath cv isDir ++ ":" ++ ld0.getD "")
  condaRunLdTrace condaPfx exitCode ld1

/-! Model of the run return values (env.py, project.py). The child writes
`childStdout` to the terminal; the Python return value is modelled as
`Option String`, with `none` for Python None. -/

/-- Method `PoetryEnvironment.run` from env.py: Popen without a stdout pipe,
communicate, then `sys.exit(returncode)` when the code is non-zero; the
method body has no return statement, so a successful call returns None. -/
def poetryEnvRunResult (exitCode : Nat) (_childStdout : String) :
    Except Nat (Option String) :=
  if exitCode = 0 then .ok none else .error exitCode

/-- Method `CondaEnvironment.run` from env.py, return value only: the conda
command runs with --no-capture-output, `_run_conda_command` exits the process
on a non-zero code, its returned stdout is discarded, and the method returns
None. -/
def condaEnvRunResult (exitCode : Nat) (_childStdout : String) :
    Except Nat (Option String) :=
  if exitCode = 0 then .ok none else .error exitCode

/-- Method `Project.run` from project.py, return value only: it returns the
value of `self._venv.run(*args)` unchanged. -/
def projectRunResult (isConda : Bool) (exitCode : Nat) (childStdout : String) :
    Except Nat (Option String) :=
  if isConda then condaEnvRunResult exitCode childStdout
  else poetryEnvRunResult exitCode childStdout

/-! Model of `temp_env_set` and `get_new_value` (utils.py). The process
environment is an association list; lookup takes the most recent binding. -/

/-- Association-list environment. -/
abbrev EnvMap := List (String × String)

/-- Current value of a key. -/
def lookupEnv : EnvMap → String → Option String
  | [], _ => none
  | (k, v) :: rest, key => if k = key then some v else lookupEnv rest key

/-- Assignment `os.environ[key] = val`. -/
def setEnv (env : EnvMap) (key val : String) : EnvMap :=
  (key, val) :: env

/-- Deletion `os.environ.pop(key)`: drop every binding of the key. -/
def popEnv : EnvMap → String → EnvMap
  | [], _ => []
  | (k, v) :: rest, key =>
    if k = key then popEnv rest key else (k, v) :: popEnv rest key

/-- The three actions of utils.py (`Actions = Literal["replace", "append",
"insert"]`). -/
inductive EnvAction
  | replace
  | append
  | insert
deriving DecidableEq

/-- Function `get_new_value` from utils.py: replace (or a missing old value)
yields the new value alone; append joins old before new with a colon; insert
joins new before old. -/
def get_new_value (new : String) (old : Option String) (action : EnvAction) :
    String :=
  match action, old with
  | .replace, _ => new
  | _, none => new
  | .append, some o => o ++ ":" ++ new
  | .insert, some o => new ++ ":" ++ o

/-- First loop of `temp_env_set`: walk the keyword arguments in order, record
the previous value of each key that exists in the `unset` dictionary, and set
each key to its `get_new_value`. Returns the mutated environment and the
`unset` dictionary. -/
def tempEnvMutate (action : EnvAction) :
    List (String × String) → EnvMap → EnvMap → EnvMap × EnvMap
  | [], env, unset => (env, unset)
  | (k, v) :: rest, env, unset =>
    let old := lookupEnv env k
    let unset1 := match old with
      | some o => setEnv unset k o
      | none => unset
    tempEnvMutate action rest (setEnv env k (get_new_value v old action)) unset1

/-- Second loop of `temp_env_set`: for each keyword argument, restore the
value recorded in `unset` when there is one and pop the key otherwise. -/
def tempEnvRestore : List (String × String) → EnvMap → EnvMap → EnvMap
  | [], _, env => env
  | (k, _) :: rest, unset, env =>
    match lookupEnv unset k with
    | some old => tempEnvRestore rest unset (setEnv env k old)
    | none => tempEnvRestore rest unset (popEnv env k)

/-- Outcome of the scoped body run between the two loops. -/
inductive BodyOutcome
  | normal
  | raises
deriving DecidableEq

/-- Context manager `temp_env_set` from utils.py: mutate, yield to the body,
then restore. The `yield` is not wrapped in try/finally, so when the body
raises, the generator is abandoned at the yield and the restore loop never
runs. -/
def temp_env_set (action : EnvAction) (kwargs : List (String × String))
    (body : BodyOutcome) (env0 : EnvMap) : EnvMap :=
  let m := tempEnvMutate action kwargs env0 []
  match body with
  | .raises => m.1
  | .normal => tempEnvRestore kwargs m.2 m.1

/-! Model of `PoetryEnvironment` construction and `contains` (env.py). -/

/-- Runtime state of a `PoetryEnvironment`: the `_venv` handle (identified by
its path name) and the name the backend generates when no handle exists. -/
structure PoetryEnv where
  venv : Option String
  generatedName : String

/-- Property `PoetryEnvironment.name`. -/
def poetryName (e : PoetryEnv) : String :=
  match e.venv with
  | some h => h
  | none => e.generatedName

/-- Method `PoetryEnvironment.__post_init__` from env.py: when the virtual
environment does not exist at construction time, `_venv` is set to None;
otherwise `create` retrieves it. -/
def poetry_post_init (existsAtConstruction : Bool) (venvFromCreate : String)
    (generated : String) : PoetryEnv :=
  if existsAtConstruction then ⟨some venvFromCreate, generated⟩
  else ⟨none, generated⟩

/-- Method `PoetryEnvironment.create` from env.py: sets `_venv` to the
backend-created virtual environment. -/
def poetryCreate (_e : PoetryEnv) (venvHandle : String) (generated : String) :
    PoetryEnv :=
  ⟨some venvHandle, generated⟩

/-- Python `name.replace("-", "_")` for single-character patterns. -/
def replaceDashUnderscore (s : String) : String :=
  String.mk (s.data.map (fun c => if c = '-' then '_' else c))

/-- Method `PoetryEnvironment.contains` from env.py: raise ValueError when
`_venv` is None, and otherwise query the site-packages for the project name
with hyphens turned into underscores. `findDistribution` is the backend
query, taking the handle and the normalized name. -/
def poetryContains (e : PoetryEnv) (findDistribution : String → String → Bool)
    (projectName : String) : Except String Bool :=
  match e.venv with
  | none =>
    .error ("Virtual environment " ++ poetryName e ++ " not created")
  | some h => .ok (findDistribution h (replaceDashUnderscore projectName))

/-- Check whether an `Except` value is a success. -/
def exceptIsOk {ε α : Type} : Except ε α → Bool
  | .ok _ => true
  | .error _ => false

/-- Presence test of an environment declaration file in one directory, under
either accepted extension. -/
def hasEnvFileAt (fs : FS) (d : DirPath) : Bool :=
  fs.fileExists d "environment.yaml" || fs.fileExists d "environment.yml"

/-- File name the inner for-loop settles on in a directory that has an
environment file: the "yaml" spelling is tried first. -/
def chosenEnvFile (fs : FS) (d : DirPath) : String :=
  if fs.fileExists d "environment.yaml" then "environment.yaml"
  else "environment.yml"

/-! Helper lemmas. -/

theorem isPrefixOf_self_append (l t : List Char) :
    List.isPrefixOf l (l ++ t) = true := by
  induction l with
  | nil => exact List.isPrefixOf_nil_left
  | cons c cs ih => simp [List.isPrefixOf_cons₂, ih]

theorem endsWithStr_mk_append (stem : List Char) (suf : String) :
    endsWithStr (String.mk (stem ++ suf.data)) suf = true := by
  show List.isPrefixOf suf.data.reverse (stem ++ suf.data).reverse = true
  rw [List.reverse_append]
  exact isPrefixOf_self_append _ _

theorem normalize_mk_append (stem : List Char) (pn : String) :
    _normalize_env_name (String.mk (stem ++ ("-base").data)) pn
      = String.mk stem ++ "-" ++ pn := by
  have hend : endsWithBase (String.mk (stem ++ ("-base").data)) = true :=
    endsWithStr_mk_append stem "-base"
  have hsd : ("-base").data = ['-', 'b', 'a', 's', 'e'] := rfl
  simp only [_normalize_env_name, endsWithBase] at hend ⊢
  rw [hend]
  simp only [if_true]
  have hlen : (stem ++ ("-base").data).length - 4 = stem.length + 1 := by
    rw [hsd]; simp [List.length_append]
  rw [hlen, List.take_append_eq_append_take,
    List.take_of_length_le (by omega)]
  have h1 : List.take (stem.length + 1 - stem.length) ['-', 'b', 'a', 's', 'e']
      = ['-'] := by
    have h2 : stem.length + 1 - stem.length = 1 := by omega
    rw [h2]
    rfl
  rw [h1]
  rfl

theorem findEnvFile_cons_found (fs : FS) (d : DirPath) (rest : List DirPath)
    (h : hasEnvFileAt fs d = true) :
    findEnvFile fs (d :: rest) = some (d, chosenEnvFile fs d) := by
  cases hy : fs.fileExists d "environment.yaml" with
  | true => simp [findEnvFile, chosenEnvFile, hy]
  | false =>
    have hm : fs.fileExists d "environment.yml" = true := by
      have h2 := h
      simp [hasEnvFileAt, hy] at h2
      exact h2
    simp [findEnvFile, chosenEnvFile, hy, hm]

theorem findEnvFile_skip (fs : FS) (pre : List DirPath) (l : List DirPath)
    (h : ∀ e ∈ pre, hasEnvFileAt fs e = false) :
    findEnvFile fs (pre ++ l) = findEnvFile fs l := by
  induction pre with
  | nil => rfl
  | cons d rest ih =>
    have hd := h d (List.mem_cons_self d rest)
    have hy : fs.fileExists d "environment.yaml" = false := by
      simp [hasEnvFileAt] at hd
      exact hd.1
    have hm : fs.fileExists d "environment.yml" = false := by
      simp [hasEnvFileAt] at hd
      exact hd.2
    show findEnvFile fs (d :: (rest ++ l)) = findEnvFile fs l
    have hstep : findEnvFile fs (d :: (rest ++ l)) = findEnvFile fs (rest ++ l) := by
      simp [findEnvFile, hy, hm]
    rw [hstep]
    exact ih (fun e he => h e (List.mem_cons_of_mem d he))

theorem findEnvFile_none (fs : FS) (l : List DirPath)
    (h : ∀ e ∈ l, hasEnvFileAt fs e = false) :
    findEnvFile fs l = none := by
  have := findEnvFile_skip fs l [] h
  rw [List.append_nil] at this
  exact this

theorem dirChain_cons (p : DirPath) : ∃ t, dirChain p = p :: t := by
  cases p with
  | nil => exact ⟨[], rfl⟩
  | cons c rest => exact ⟨dirChain rest, rfl⟩

theorem lookupEnv_setEnv_same (env : EnvMap) (k v : String) :
    lookupEnv (setEnv env k v) k = some v := by
  simp [setEnv, lookupEnv]

theorem lookupEnv_setEnv_ne (env : EnvMap) {k k2 : String} (v : String)
    (h : k ≠ k2) : lookupEnv (setEnv env k v) k2 = lookupEnv env k2 := by
  simp [setEnv, lookupEnv, h]

theorem lookupEnv_popEnv_same (env : EnvMap) (k : String) :
    lookupEnv (popEnv env k) k = none := by
  induction env with
  | nil => rfl
  | cons p rest ih =>
    obtain ⟨pk, pv⟩ := p
    by_cases h : pk = k
    · simp [popEnv, h, ih]
    · simp [popEnv, lookupEnv, h, ih]

theorem lookupEnv_popEnv_ne (env : EnvMap) {k k2 : String}
    (h : k ≠ k2) : lookupEnv (popEnv env k) k2 = lookupEnv env k2 := by
  induction env with
  | nil => rfl
  | cons p rest ih =>
    obtain ⟨pk, pv⟩ := p
    by_cases hp : pk = k
    · have hp2 : pk ≠ k2 := by rw [hp]; exact h
      simp [popEnv, lookupEnv, hp, hp2, ih, h]
    · simp only [popEnv, if_neg hp, lookupEnv]
      by_cases hp2 : pk = k2
      · simp [hp2]
      · simp [hp2, ih]

theorem tempEnvMutate_notMem (action : EnvAction) :
    ∀ (kwargs : List (String × String)) (env unset : EnvMap) (k : String),
      k ∉ kwargs.map Prod.fst →
      lookupEnv (tempEnvMutate action kwargs env unset).1 k = lookupEnv env k ∧
      lookupEnv (tempEnvMutate action kwargs env unset).2 k
        = lookupEnv unset k := by
  intro kwargs
  induction kwargs with
  | nil => intro env unset k _; exact ⟨rfl, rfl⟩
  | cons kv rest ih =>
    intro env unset k h
    obtain ⟨k1, v1⟩ := kv
    simp only [List.map_cons, List.mem_cons, not_or] at h
    obtain ⟨hne, hrest⟩ := h
    have hne1 : k1 ≠ k := fun hc => hne hc.symm
    show
      lookupEnv
          (tempEnvMutate action ((k1, v1) :: rest) env unset).1 k
        = lookupEnv env k ∧
      lookupEnv
          (tempEnvMutate action ((k1, v1) :: rest) env unset).2 k
        = lookupEnv unset k
    cases hOld : lookupEnv env k1 with
    | none =>
      have hstep :
          tempEnvMutate action ((k1, v1) :: rest) env unset
            = tempEnvMutate action rest
                (setEnv env k1 (get_new_value v1 none action)) unset := by
        simp [tempEnvMutate, hOld]
      rw [hstep]
      have hr := ih (setEnv env k1 (get_new_value v1 none action)) unset k hrest
      rw [hr.1, hr.2, lookupEnv_setEnv_ne env _ hne1]
      exact ⟨rfl, rfl⟩
    | some o =>
      have hstep :
          tempEnvMutate action ((k1, v1) :: rest) env unset
            = tempEnvMutate action rest
                (setEnv env k1 (get_new_value v1 (some o) action))
                (setEnv unset k1 o) := by
        simp [tempEnvMutate, hOld]
      rw [hstep]
      have hr := ih (setEnv env k1 (get_new_value v1 (some o) action))
        (setEnv unset k1 o) k hrest
      rw [hr.1, hr.2, lookupEnv_setEnv_ne env _ hne1,
        lookupEnv_setEnv_ne unset _ hne1]
      exact ⟨rfl, rfl⟩

theorem tempEnvMutate_mem (action : EnvAction) :
    ∀ (kwargs : List (String × String)) (env unset : EnvMap) (k : String),
      (kwargs.map Prod.fst).Nodup →
      k ∈ kwargs.map Prod.fst →
      lookupEnv (tempEnvMutate action kwargs env unset).2 k
        = (match lookupEnv env k with
           | some o => some o
           | none => lookupEnv unset k) := by
  intro kwargs
  induction kwargs with
  | nil => intro env unset k _ hk; cases hk
  | cons kv rest ih =>
    intro env unset k hnd hk
    obtain ⟨k1, v1⟩ := kv
    simp only [List.map_cons, List.nodup_cons] at hnd
    obtain ⟨hk1rest, hndrest⟩ := hnd
    simp only [List.map_cons, List.mem_cons] at hk
    by_cases heq : k = k1
    · subst heq
      cases hOld : lookupEnv env k with
      | none =>
        have hstep :
            tempEnvMutate action ((k, v1) :: rest) env unset
              = tempEnvMutate action rest
                  (setEnv env k (get_new_value v1 none action)) unset := by
          simp [tempEnvMutate, hOld]
        rw [hstep]
        have hr := (tempEnvMutate_notMem action rest
          (setEnv env k (get_new_value v1 none action)) unset k hk1rest).2
        rw [hr]
      | some o =>
        have hstep :
            tempEnvMutate action ((k, v1) :: rest) env unset
              = tempEnvMutate action rest
                  (setEnv env k (get_new_value v1 (some o) action))
                  (setEnv unset k o) := by
          simp [tempEnvMutate, hOld]
        rw [hstep]
        have hr := (tempEnvMutate_notMem action rest
          (setEnv env k (get_new_value v1 (some o) action))
          (setEnv unset k o) k hk1rest).2
        rw [hr, lookupEnv_setEnv_same]
    · have hkrest : k ∈ rest.map Prod.fst := by
        cases hk with
        | inl hc => exact absurd hc heq
        | inr hr => exact hr
      have hne1 : k1 ≠ k := fun hc => heq hc.symm
      cases hOld : lookupEnv env k1 with
      | none =>
        have hstep :
            tempEnvMutate action ((k1, v1) :: rest) env unset
              = tempEnvMutate action rest
                  (setEnv env k1 (get_new_value v1 none action)) unset := by
          simp [tempEnvMutate, hOld]
        rw [hstep]
        have hr := ih (setEnv env k1 (get_new_value v1 none action)) unset k
          hndrest hkrest
        rw [hr, lookupEnv_setEnv_ne env _ hne1]
      | some o =>
        have hstep :
            tempEnvMutate action ((k1, v1) :: rest) env unset
              = tempEnvMutate action rest
                  (setEnv env k1 (get_new_value v1 (some o) action))
                  (setEnv unset k1 o) := by
          simp [tempEnvMutate, hOld]
        rw [hstep]
        have hr := ih (setEnv env k1 (get_new_value v1 (some o) action))
          (setEnv unset k1 o) k hndrest hkrest
        rw [hr, lookupEnv_setEnv_ne env _ hne1,
          lookupEnv_setEnv_ne unset _ hne1]

theorem tempEnvRestore_spec :
    ∀ (kwargs : List (String × String)) (unset env : EnvMap) (k : String),
      (kwargs.map Prod.fst).Nodup →
      (k ∈ kwargs.map Prod.fst →
        lookupEnv (tempEnvRestore kwargs unset env) k = lookupEnv unset k) ∧
      (k ∉ kwargs.map Prod.fst →
        lookupEnv (tempEnvRestore kwargs unset env) k = lookupEnv env k) := by
  intro kwargs
  induction kwargs with
  | nil =>
    intro unset env k _
    exact ⟨fun hk => absurd hk (List.not_mem_nil k), fun _ => rfl⟩
  | cons kv rest ih =>
    intro unset env k hnd
    obtain ⟨k1, v1⟩ := kv
    simp only [List.map_cons, List.nodup_cons] at hnd
    obtain ⟨hk1rest, hndrest⟩ := hnd
    have henv1 :
        ∀ env2, tempEnvRestore ((k1, v1) :: rest) unset env2
          = tempEnvRestore rest unset
              (match lookupEnv unset k1 with
               | some old => setEnv env2 k1 old
               | none => popEnv env2 k1) := by
      intro env2
      cases h1 : lookupEnv unset k1 <;> simp [tempEnvRestore, h1]
    constructor
    · intro hk
      simp only [List.map_cons, List.mem_cons] at hk
      rw [henv1 env]
      by_cases heq : k = k1
      · subst heq
        have hr := (ih unset
          (match lookupEnv unset k with
           | some old => setEnv env k old
           | none => popEnv env k) k hndrest).2 hk1rest
        rw [hr]
        cases h1 : lookupEnv unset k with
        | some old => simp only [h1, lookupEnv_setEnv_same]
        | none => simp only [h1, lookupEnv_popEnv_same]
      · have hkrest : k ∈ rest.map Prod.fst := by
          cases hk with
          | inl hc => exact absurd hc heq
          | inr hr => exact hr
        exact (ih unset _ k hndrest).1 hkrest
    · intro hk
      simp only [List.map_cons, List.mem_cons, not_or] at hk
      obtain ⟨hne, hkrest⟩ := hk
      have hne1 : k1 ≠ k := fun hc => hne hc.symm
      rw [henv1 env]
      have hr := (ih unset
        (match lookupEnv unset k1 with
         | some old => setEnv env k1 old
         | none => popEnv env k1) k hndrest).2 hkrest
      rw [hr]
      cases h1 : lookupEnv unset k1 with
      | some old => simp only [h1, lookupEnv_setEnv_ne env _ hne1]
      | none => simp only [h1, lookupEnv_popEnv_ne env hne1]

theorem strContains_tool_poetry : strContains "tool" "poetry" = false := by
  decide

theorem strContains_name_poetry : strContains "name" "poetry" = false := by
  decide

theorem strContains_poetry_poetry : strContains "poetry" "poetry" = true := by
  decide

/-! Theorems for the claims. -/

/-- Filesystem with a single environment.yaml in the project directory
/proj itself, declaring the name "foo-base". -/
def fsOwnBase : FS where
  fileExists d f := d == ["proj"] && f == "environment.yaml"
  nameField d f :=
    if d == ["proj"] && f == "environment.yaml" then some "foo-base" else none

/-- Filesystem with no environment files anywhere. -/
def fsEmpty : FS where
  fileExists _ _ := false
  nameField _ _ := none

/-- Filesystem with a single environment.yml in the grandparent directory
/gp, declaring the name "teamenv". -/
def fsGrand : FS where
  fileExists d f := d == ["gp"] && f == "environment.yml"
  nameField d f :=
    if d == ["gp"] && f == "environment.yml" then some "teamenv" else none

/-- Filesystem with a single environment.yaml in the parent directory /top,
declaring the name "pinto-base". -/
def fsGrandBase : FS where
  fileExists d f := d == ["top"] && f == "environment.yaml"
  nameField d f :=
    if d == ["top"] && f == "environment.yaml" then some "pinto-base"
    else none

/-- Claim C1, counterexample: a declaration file in the project's own
directory whose declared name is "foo-base", with project name "bar",
resolves to "foo-base" verbatim, not to the "foo-bar" the claim requires;
the own-directory branch of `_look_for_environment_file` never applies the
suffix substitution. -/
theorem c1_counterexample :
    look_for_environment_file fsOwnBase ["proj"] "bar"
      = .ok ((["proj"], "environment.yaml"), "foo-base") ∧
    ("foo-base" : String) ≠ "foo-bar" := by
  refine ⟨by decide, by decide⟩

/-- Claim C1 (amended): the trailing "-base" of a resolved declared name is
replaced, so that stem++"-base" with project name pn yields stem++"-"++pn,
when the name comes from a manifest-declared base_env (given literally or
read from a declared yaml file) or from a declaration file found in a
strict ancestor directory; the substitution applies only to a trailing
"-base", a name without that suffix being left unchanged by the normalizer;
but a declaration file found in the project's own directory has its name
used verbatim whether or not it ends in "-base". -/
theorem c1_amended :
    (∀ (stem : List Char) (pn : String),
        _normalize_env_name (String.mk (stem ++ ("-base").data)) pn
          = String.mk stem ++ "-" ++ pn) ∧
    (∀ (n pn : String), endsWithBase n = false →
        _normalize_env_name n pn = n) ∧
    (∀ (fs : FS) (p : DirPath) (pn be : String)
        (rd : String → Option String), _is_yaml be = false →
        conda_post_init_name fs p pn (some be) rd
          = .ok (_normalize_env_name be pn)) ∧
    (∀ (fs : FS) (p : DirPath) (pn be n : String)
        (rd : String → Option String), _is_yaml be = true → rd be = some n →
        conda_post_init_name fs p pn (some be) rd
          = .ok (_normalize_env_name n pn)) ∧
    (∀ (fs : FS) (p : DirPath) (pn n : String) (pre post : List DirPath)
        (d : DirPath),
        dirChain p = pre ++ d :: post →
        (∀ e ∈ pre, hasEnvFileAt fs e = false) →
        hasEnvFileAt fs d = true →
        d ≠ p →
        fs.nameField d (chosenEnvFile fs d) = some n →
        endsWithBase n = true →
        look_for_environment_file fs p pn
          = .ok ((d, chosenEnvFile fs d), _normalize_env_name n pn)) ∧
    (∀ (fs : FS) (p : DirPath) (pn n : String),
        hasEnvFileAt fs p = true →
        fs.nameField p (chosenEnvFile fs p) = some n →
        look_for_environment_file fs p pn
          = .ok ((p, chosenEnvFile fs p), n)) := by
  refine ⟨normalize_mk_append, ?_, ?_, ?_, ?_, ?_⟩
  · intro n pn h
    simp [_normalize_env_name, endsWithBase] at h ⊢
    intro hc
    rw [h] at hc
    cases hc
  · intro fs p pn be rd h
    simp [conda_post_init_name, h]
  · intro fs p pn be n rd h hrd
    simp [conda_post_init_name, h, hrd]
  · intro fs p pn n pre post d hchain hpre hd hne hname hbase
    unfold look_for_environment_file
    rw [hchain, findEnvFile_skip fs pre _ hpre,
      findEnvFile_cons_found fs d post hd]
    simp [hname, hne, hbase]
  · intro fs p pn n hfile hname
    obtain ⟨t, ht⟩ := dirChain_cons p
    unfold look_for_environment_file
    rw [ht, findEnvFile_cons_found fs p t hfile]
    simp [hname]

/-- Witness for the amended C1 theorem at concrete inputs: "foo-base" with
project "bar" normalizes to "foo-bar"; the mid-string occurrence in
"a-base-x" is untouched; the manifest-declared name "team-base" for project
"widgets" resolves to "team-widgets"; the ancestor-declared "pinto-base"
for project "testlib" resolves to "pinto-testlib"; and an own-directory
name is kept verbatim. -/
theorem c1_amended_witness :
    _normalize_env_name "foo-base" "bar" = "foo-bar" ∧
    _normalize_env_name "a-base-x" "bar" = "a-base-x" ∧
    conda_post_init_name fsEmpty [] "widgets" (some "team-base")
        (fun _ => none) = .ok "team-widgets" ∧
    look_for_environment_file fsGrandBase ["proj", "top"] "testlib"
      = .ok ((["top"], "environment.yaml"), "pinto-testlib") ∧
    look_for_environment_file fsOwnBase ["proj"] "zzz"
      = .ok ((["proj"], "environment.yaml"), "foo-base") := by
  refine ⟨?_, ?_, ?_, ?_, ?_⟩
  · have h := c1_amended.1 ("foo").data "bar"
    have e1 : String.mk (("foo").data ++ ("-base").data) = "foo-base" := rfl
    have e2 : String.mk ("foo").data ++ "-" ++ "bar" = "foo-bar" := rfl
    rw [e1, e2] at h
    exact h
  · exact c1_amended.2.1 "a-base-x" "bar" (by decide)
  · have h := c1_amended.2.2.1 fsEmpty [] "widgets" "team-base"
      (fun _ => none) (by decide)
    have e : _normalize_env_name "team-base" "widgets" = "team-widgets" := by
      decide
    rw [e] at h
    exact h
  · have h := c1_amended.2.2.2.2.1 fsGrandBase ["proj", "top"] "testlib"
      "pinto-base" [["proj", "top"]] [[]] ["top"]
      (by decide) (by decide) (by decide) (by decide) (by decide) (by decide)
    have e1 : chosenEnvFile fsGrandBase ["top"] = "environment.yaml" := by
      decide
    have e2 : _normalize_env_name "pinto-base" "testlib" = "pinto-testlib" := by
      decide
    rw [e1, e2] at h
    exact h
  · have h := c1_amended.2.2.2.2.2 fsOwnBase ["proj"] "zzz" "foo-base"
      (by decide) (by decide)
    have e1 : chosenEnvFile fsOwnBase ["proj"] = "environment.yaml" := by
      decide
    rw [e1] at h
    exact h

/-- Claim C2: the upward search of `_look_for_environment_file` starts at
the project directory, walks parents to the filesystem root, accepts either
file extension, takes the first directory containing a declaration file,
resolves an ancestor-declared non-"-base" name to the project's own name,
and raises the configuration error when the root is passed with no file
found. -/
theorem c2_upward_search (fs : FS) (p : DirPath) (pn : String) :
    ((dirChain p).head? = some p ∧ [] ∈ dirChain p) ∧
    ((∀ d ∈ dirChain p, hasEnvFileAt fs d = false) →
      look_for_environment_file fs p pn
        = .error "No environment file in directory tree of project") ∧
    (∀ (pre post : List DirPath) (d : DirPath) (n : String),
      dirChain p = pre ++ d :: post →
      (∀ e ∈ pre, hasEnvFileAt fs e = false) →
      hasEnvFileAt fs d = true →
      d ≠ p →
      fs.nameField d (chosenEnvFile fs d) = some n →
      endsWithBase n = false →
      look_for_environment_file fs p pn
        = .ok ((d, chosenEnvFile fs d), pn)) := by
  refine ⟨⟨?_, ?_⟩, ?_, ?_⟩
  · cases p <;> rfl
  · induction p with
    | nil => exact List.mem_singleton.mpr rfl
    | cons c rest ih => exact List.mem_cons_of_mem _ ih
  · intro hall
    unfold look_for_environment_file
    rw [findEnvFile_none fs _ hall]
  · intro pre post d n hchain hpre hd hne hname hbase
    unfold look_for_environment_file
    rw [hchain, findEnvFile_skip fs pre _ hpre,
      findEnvFile_cons_found fs d post hd]
    simp [hname, hne, hbase]

/-- Witness for the C2 theorem at concrete inputs: with no declaration file
anywhere the resolver fails, and with a file only in the grandparent
directory (under the ".yml" spelling) declaring the non-"-base" name
"teamenv", the project "myproj" resolves to its own name. -/
theorem c2_witness :
    look_for_environment_file fsEmpty ["proj"] "proj"
      = .error "No environment file in directory tree of project" ∧
    look_for_environment_file fsGrand ["proj", "par", "gp"] "myproj"
      = .ok ((["gp"], "environment.yml"), "myproj") := by
  constructor
  · exact (c2_upward_search fsEmpty ["proj"] "proj").2.1 (by decide)
  · have h := (c2_upward_search fsGrand ["proj", "par", "gp"] "myproj").2.2
      [["proj", "par", "gp"], ["par", "gp"]] [[]] ["gp"] "teamenv"
      (by decide) (by decide) (by decide) (by decide) (by decide) (by decide)
    have e : chosenEnvFile fsGrand ["gp"] = "environment.yml" := by decide
    rw [e] at h
    exact h

/-- Claim C3, counterexample: for the step "b:deploy:prod" with a declared
scripts table that contains "build" but not "deploy", the reference built by
`Pipeline.run_step` is "P:prod" with a single colon, not the "P::prod" the
claim requires; the double colon appears only when the scripts key is absent
altogether. -/
theorem c3_counterexample :
    pipelineStepRef "P" (TypeoConfig.mk (some ["build"])) "b:deploy:prod"
      = .ok "P:prod" ∧
    ("P:prod" : String) ≠ "P::prod" ∧
    pipelineStepRef "P" (TypeoConfig.mk none) "b:deploy:prod"
      = .ok "P::prod" := by
  refine ⟨by decide, by decide, by decide⟩

/-- Claim C3 (amended): for a step component:command[:subcommand], when the
scripts table exists and contains the command the reference is
path:command[:subcommand]; when the typeo table has no scripts key at all the
reference is path[::subcommand]; and when the scripts table exists but lacks
the command the reference is path[:subcommand] with a single colon. In
particular, for steps ["a:build", "b:deploy:prod"] with a table containing
"build" but not "deploy", step 1 yields path:build and step 2 yields
path:prod. -/
theorem c3_amended :
    (∀ (pipelinePath cmd : String) (sub : Option String) (s : List String),
        s.contains cmd = true →
        run_step_typeo_arg pipelinePath (TypeoConfig.mk (some s)) cmd sub
          = match sub with
            | some x => pipelinePath ++ ":" ++ cmd ++ ":" ++ x
            | none => pipelinePath ++ ":" ++ cmd) ∧
    (∀ (pipelinePath cmd : String) (sub : Option String),
        run_step_typeo_arg pipelinePath (TypeoConfig.mk none) cmd sub
          = match sub with
            | some x => pipelinePath ++ "::" ++ x
            | none => pipelinePath) ∧
    (∀ (pipelinePath cmd : String) (sub : Option String) (s : List String),
        s.contains cmd = false →
        run_step_typeo_arg pipelinePath (TypeoConfig.mk (some s)) cmd sub
          = match sub with
            | some x => pipelinePath ++ ":" ++ x
            | none => pipelinePath) ∧
    (pipelineStepRef "P" (TypeoConfig.mk (some ["build"])) "a:build"
        = .ok "P:build" ∧
      pipelineStepRef "P" (TypeoConfig.mk (some ["build"])) "b:deploy:prod"
        = .ok "P:prod") := by
  refine ⟨?_, ?_, ?_, by decide, by decide⟩
  · intro pp cmd sub s h
    have hm : cmd ∈ s := by simpa using h
    cases sub <;> simp [run_step_typeo_arg, hm]
  · intro pp cmd sub
    cases sub <;> rfl
  · intro pp cmd sub s h
    have hm : cmd ∉ s := by simpa using h
    cases sub <;> simp [run_step_typeo_arg, hm]

/-- Witness for the amended C3 theorem at concrete inputs: the command
"build" is in the table and maps to a single-colon script reference, while
"deploy" is not in the table and its subcommand gets a single colon as
well. -/
theorem c3_amended_witness :
    run_step_typeo_arg "P" (TypeoConfig.mk (some ["build"])) "build" none
      = "P:build" ∧
    run_step_typeo_arg "P" (TypeoConfig.mk (some ["build"])) "deploy"
        (some "prod") = "P:prod" := by
  constructor
  · have h := c3_amended.1 "P" "build" none ["build"] (by decide)
    rw [h]; decide
  · have h := c3_amended.2.2.1 "P" "deploy" (some "prod") ["build"] (by decide)
    rw [h]; decide

/-- Claim C4, counterexample: a run with cuda-version "11.2" (not a
directory) and prior LD_LIBRARY_PATH "/orig" leaves the parent variable set
to "/usr/local/cuda-11.2/lib64:/orig" after the call, not the prior value. -/
theorem c4_counterexample :
    (projectRunLdTrace (some ("11.2", false)) "/conda" 0 (some "/orig")).1.2
      = some "/usr/local/cuda-11.2/lib64:/orig" ∧
    (projectRunLdTrace (some ("11.2", false)) "/conda" 0 (some "/orig")).1.2
      ≠ some "/orig" := by
  refine ⟨by decide, by decide⟩

/-- Claim C4 (amended): the shared-environment library injection performed
inside `CondaEnvironment.run` is restored on every exit path, so a run with
no CUDA configuration leaves LD_LIBRARY_PATH byte-for-byte unchanged whatever
the child exit code; but when a cuda-version is configured, `Project.run`
leaves the injected CUDA prefix in the parent value after the call. -/
theorem c4_amended :
    (∀ (condaPfx : String) (exitCode : Nat) (ld0 : Option String),
        (projectRunLdTrace none condaPfx exitCode ld0).1.2 = ld0) ∧
    (∀ (condaPfx : String) (exitCode : Nat) (ld0 : Option String),
        (condaRunLdTrace condaPfx exitCode ld0).1.2 = ld0) ∧
    (∀ (cv : String) (isDir : Bool) (condaPfx : String) (exitCode : Nat)
        (ld0 : Option String),
        (projectRunLdTrace (some (cv, isDir)) condaPfx exitCode ld0).1.2
          = some (cudaLibPath cv isDir ++ ":" ++ ld0.getD "")) := by
  refine ⟨?_, ?_, ?_⟩
  · intro pfx ec ld0; cases ld0 <;> rfl
  · intro pfx ec ld0; cases ld0 <;> rfl
  · intro cv isDir pfx ec ld0; cases ld0 <;> rfl

/-- Claim C5: evaluation of the run models at the failing input. A child
that prints "can you hear me?" and exits 0 makes both environment variants
(and `Project.run`, which relays the value) return None rather than the
captured standard output, contradicting the claim (and the docstring of
`Project.run` and the tests); a non-zero exit code is, as claimed, surfaced
as a failure. -/
theorem c5_code_bug_eval :
    poetryEnvRunResult 0 "can you hear me?" = .ok none ∧
    condaEnvRunResult 0 "can you hear me?" = .ok none ∧
    projectRunResult true 0 "can you hear me?" = .ok none ∧
    projectRunResult false 0 "can you hear me?" = .ok none ∧
    poetryEnvRunResult 2 "" = .error 2 ∧
    condaEnvRunResult 3 "" = .error 3 := by
  refine ⟨rfl, rfl, rfl, rfl, rfl, rfl⟩

/-- Claim C6, counterexample: a pyproject.toml with no `tool` table, and one
whose `tool.poetry` table has no `name` key, both leave the project name
silently unset instead of raising the configuration error the claim requires
for every such case; only the missing `tool.poetry` table raises. -/
theorem c6_counterexample :
    projectNameOutcome ⟨false, true, some "x"⟩ = .nameUnset ∧
    projectNameOutcome ⟨true, true, none⟩ = .nameUnset ∧
    NameOutcome.nameUnset ≠ NameOutcome.configError := by
  refine ⟨by decide, by decide, by decide⟩

/-- Claim C6 (amended): `Project.__post_init__` raises the configuration
error exactly when the `tool` table exists but has no `poetry` table; a
missing `tool` table or a missing `name` key is silently swallowed, leaving
the name unset. -/
theorem c6_amended (c : ProjectConfig) :
    projectNameOutcome c = .configError ↔
      (c.hasToolTable = true ∧ c.hasPoetryTable = false) := by
  obtain ⟨ht, hp, pn⟩ := c
  cases pn with
  | none => cases ht <;> cases hp <;> decide
  | some a =>
    cases ht <;> cases hp <;>
      simp [projectNameOutcome, lookupPoetryName, strContains_tool_poetry,
        strContains_poetry_poetry]

/-- Witness for the amended C6 theorem at a concrete input: a config with a
`tool` table but no `poetry` table raises the configuration error. -/
theorem c6_amended_witness :
    projectNameOutcome ⟨true, false, none⟩ = .configError :=
  (c6_amended ⟨true, false, none⟩).mpr ⟨rfl, rfl⟩

/-- Claim C7, counterexample: a pipeline manifest declaring an empty step
list together with a typeo table is accepted at construction, although the
claim requires a non-empty step list to be enforced. -/
theorem c7_counterexample :
    pipelinePostInit ⟨some [], some (TypeoConfig.mk (some ["build"]))⟩
      = .ok ([], TypeoConfig.mk (some ["build"])) ∧
    exceptIsOk
      (pipelinePostInit ⟨some [], some (TypeoConfig.mk (some ["build"]))⟩)
      = true := by
  refine ⟨rfl, rfl⟩

/-- Claim C7 (amended): `Pipeline.__post_init__` succeeds exactly when the
steps key and the typeo table are both declared; either one missing is a
construction-time configuration error, but the declared step list is not
checked for emptiness. -/
theorem c7_amended (c : PipelineConfig) :
    exceptIsOk (pipelinePostInit c) = true ↔
      (c.steps.isSome = true ∧ c.typeoTbl.isSome = true) := by
  obtain ⟨st, tt⟩ := c
  cases st <;> cases tt <;> simp [pipelinePostInit, exceptIsOk]

/-- Witness for the amended C7 theorem at a concrete input: a manifest with
a declared step list and typeo table is accepted. -/
theorem c7_amended_witness :
    exceptIsOk
      (pipelinePostInit ⟨some ["a:b"], some (TypeoConfig.mk none)⟩) = true :=
  (c7_amended ⟨some ["a:b"], some (TypeoConfig.mk none)⟩).mpr ⟨rfl, rfl⟩

/-- Claim C9: the three-way branch of `Project.install`. The environment is
created first exactly when it does not exist; an installed project with
force off triggers zero backend installs and one informational log; a
missing project always installs; an installed project with force on
reinstalls. -/
theorem c9_install_three_way :
    ∀ envExists containsProject force : Bool,
      ((projectInstallActions false containsProject force).head?
          = some .createEnv) ∧
      ((projectInstallActions true containsProject force).count .createEnv
          = 0) ∧
      ((projectInstallActions envExists true false).count .backendInstall
          = 0) ∧
      ((projectInstallActions envExists true false).count .logAlreadyInstalled
          = 1) ∧
      ((projectInstallActions envExists false force).count .backendInstall
          = 1) ∧
      ((projectInstallActions envExists true true).count .backendInstall
          = 1) := by
  decide

/-- Claim C10: a `PoetryEnvironment` constructed while its virtual
environment did not exist holds a None handle, so `contains` raises the
"Virtual environment ... not created" ValueError no matter what the
backend distribution query or any later live existence check would say;
only `create` installs a handle and unlocks the site-packages query. -/
theorem c10_contains_before_create :
    ∀ (venvFromCreate generated projectName : String)
      (findDistribution : String → String → Bool),
      poetryContains (poetry_post_init false venvFromCreate generated)
          findDistribution projectName
        = .error ("Virtual environment " ++ generated ++ " not created") ∧
      poetryContains
          (poetryCreate (poetry_post_init false venvFromCreate generated)
            venvFromCreate generated) findDistribution projectName
        = .ok (findDistribution venvFromCreate
            (replaceDashUnderscore projectName)) := by
  intro v g pn f
  exact ⟨rfl, rfl⟩

/-- Claim C8, counterexample: when the scoped body raises, the restore loop
of `temp_env_set` never runs (the yield is not guarded by try/finally), so a
key that previously held "old" keeps the injected "new" and a key that did
not previously exist stays present. -/
theorem c8_counterexample :
    lookupEnv (temp_env_set .replace [("K", "new")] .raises [("K", "old")])
        "K" = some "new" ∧
    (some "new" : Option String) ≠ some "old" ∧
    lookupEnv (temp_env_set .replace [("J", "x")] .raises []) "J"
      = some "x" := by
  refine ⟨by decide, by decide, by decide⟩

/-- Claim C8 (amended): when the scoped body completes normally,
`temp_env_set` restores every key's lookup to its prior state — a key that
previously existed regains its exact prior value and a key that did not
previously exist is removed — and keys outside the keyword set are
untouched; but when the body raises, the mutation is left in place. -/
theorem c8_amended (action : EnvAction) (kwargs : List (String × String))
    (env0 : EnvMap) (hnd : (kwargs.map Prod.fst).Nodup) :
    ∀ k, lookupEnv (temp_env_set action kwargs .normal env0) k
      = lookupEnv env0 k := by
  intro k
  unfold temp_env_set
  by_cases hk : k ∈ kwargs.map Prod.fst
  · have hr := (tempEnvRestore_spec kwargs
      (tempEnvMutate action kwargs env0 []).2
      (tempEnvMutate action kwargs env0 []).1 k hnd).1 hk
    rw [hr, tempEnvMutate_mem action kwargs env0 [] k hnd hk]
    cases h0 : lookupEnv env0 k <;> rfl
  · have hr := (tempEnvRestore_spec kwargs
      (tempEnvMutate action kwargs env0 []).2
      (tempEnvMutate action kwargs env0 []).1 k hnd).2 hk
    rw [hr, (tempEnvMutate_notMem action kwargs env0 [] k hk).1]

/-- Witness for the amended C8 theorem at concrete inputs: a previously set
key regains its old value and a previously missing key is removed again
after a normal exit. -/
theorem c8_amended_witness :
    lookupEnv (temp_env_set .replace [("K", "new")] .normal [("K", "old")])
        "K" = some "old" ∧
    lookupEnv (temp_env_set .append [("J", "x")] .normal []) "J" = none := by
  constructor
  · have h := c8_amended .replace [("K", "new")] [("K", "old")]
      (by decide) "K"
    rw [h]; decide
  · have h := c8_amended .append [("J", "x")] [] (by decide) "J"
    rw [h]; rfl

end Pinto
